import Mathlib

/-!
Verification development for the rigid-body dynamics core of the repository:
collision detection and impulse resolution (CollisionDetection, translated from
the source file defining `pt_velocity`, `colliding`, `collision`,
`FindAllCollisions`), the fixed-step ODE integrators (`ODEsolver.cpp`:
`EulerSolver`, `RK4Solver`, `createODESolver`) and the derivative engine
(`DerivFunc.cpp`: `StateToArray`, `ArrayToState`, `ComputeForceAndTorque`,
`Star`, `DdtStateToArray`, `Dxdt`).

Embedding conventions.  The C++ code computes over `double` and `glm::vec3`
(float); this development works in exact rational arithmetic `ℚ`, so every
theorem is a statement about the algorithms in exact arithmetic.  Division in
`ℚ` is total with `q / 0 = 0`.  Pointers to rigid bodies inside a `Contact`
are inlined by value: a mutating C++ function becomes a function returning the
updated structure.  Out-parameter vectors (`xEnd`, `xdot`, buffers) become
explicit arguments threaded through and returned.
-/

namespace Animation

/-- `glm::vec3` (called `triple` in the source), with exact coordinates. -/
structure Triple where
  x : ℚ
  y : ℚ
  z : ℚ
deriving DecidableEq

namespace Triple

@[ext] theorem ext2 {a b : Triple} (hx : a.x = b.x) (hy : a.y = b.y) (hz : a.z = b.z) : a = b := by
  cases a; cases b; simp_all

end Triple

instance : Zero Triple := ⟨⟨0, 0, 0⟩⟩

instance : Add Triple := ⟨fun a b => ⟨a.x + b.x, a.y + b.y, a.z + b.z⟩⟩

instance : Sub Triple := ⟨fun a b => ⟨a.x - b.x, a.y - b.y, a.z - b.z⟩⟩

instance : Neg Triple := ⟨fun a => ⟨-a.x, -a.y, -a.z⟩⟩

instance : SMul ℚ Triple := ⟨fun c a => ⟨c * a.x, c * a.y, c * a.z⟩⟩

/-- Componentwise division by a scalar, as in `c->a->P / mass` in the source. -/
instance : HDiv Triple ℚ Triple := ⟨fun a s => ⟨a.x / s, a.y / s, a.z / s⟩⟩

/-- `glm::dot`. -/
def dot (a b : Triple) : ℚ := a.x * b.x + a.y * b.y + a.z * b.z

/-- `glm::cross`. -/
def cross (a b : Triple) : Triple :=
  ⟨a.y * b.z - a.z * b.y, a.z * b.x - a.x * b.z, a.x * b.y - a.y * b.x⟩

/-- `glm::mat3` as a linear map, stored as three rows. -/
structure Mat3 where
  r0 : Triple
  r1 : Triple
  r2 : Triple
deriving DecidableEq

/-- Matrix-vector product `m * v`. -/
def Mat3.mulVec (m : Mat3) (v : Triple) : Triple := ⟨dot m.r0 v, dot m.r1 v, dot m.r2 v⟩

instance : HMul Mat3 Triple Triple := ⟨Mat3.mulVec⟩

/-- The identity 3x3 matrix. -/
def Mat3.one : Mat3 := ⟨⟨1, 0, 0⟩, ⟨0, 1, 0⟩, ⟨0, 0, 1⟩⟩

/-- `struct RigidBody` from the collision header. -/
structure RigidBody where
  mass : ℚ
  x : Triple
  v : Triple
  omega : Triple
  P : Triple
  L : Triple
  Iinv : Mat3
deriving DecidableEq

/-- `struct Contact` from the collision header; the two body pointers are
inlined by value. -/
structure Contact where
  a : RigidBody
  b : RigidBody
  p : Triple
  n : Triple
  ea : Triple
  eb : Triple
  vf : Bool
deriving DecidableEq

/-- `pt_velocity`: velocity of a material point of a rigid body. -/
def pt_velocity (body : RigidBody) (p : Triple) : Triple :=
  body.v + cross body.omega (p - body.x)

/-- `const double THRESHOLD = 1e-6;` -/
def THRESHOLD : ℚ := 1 / 1000000

/-- `colliding`: classify a contact, following the source tests in order:
separating if `vrel > THRESHOLD`, resting if `vrel > -THRESHOLD`, else
colliding. -/
def colliding (c : Contact) : Bool :=
  let padot := pt_velocity c.a c.p
  let pbdot := pt_velocity c.b c.p
  let vrel := dot c.n (padot - pbdot)
  if vrel > THRESHOLD then false
  else if vrel > -THRESHOLD then false
  else true

/-- The relative normal velocity of a contact, the quantity the source calls
`vrel` in both `colliding` and `collision`. -/
def vrelOf (c : Contact) : ℚ :=
  dot c.n (pt_velocity c.a c.p - pt_velocity c.b c.p)

/-- The denominator of the impulse magnitude computed in `collision`
(`term1 + term2 + term3 + term4`). -/
def impulseDenominator (c : Contact) : ℚ :=
  1 / c.a.mass + 1 / c.b.mass
    + dot c.n (cross (c.a.Iinv * cross (c.p - c.a.x) c.n) (c.p - c.a.x))
    + dot c.n (cross (c.b.Iinv * cross (c.p - c.b.x) c.n) (c.p - c.b.x))

/-- The body updates of `collision` for an impulse of magnitude `j` along the
contact normal: `P += j n`, `L += r x (j n)` on body `a`, the opposite signs on
body `b`, followed by the mandatory recomputation of `v` and `omega`. -/
def applyImpulse (c : Contact) (j : ℚ) : Contact :=
  let n := c.n
  let ra := c.p - c.a.x
  let rb := c.p - c.b.x
  let force := j • n
  let Pa := c.a.P + force
  let Pb := c.b.P - force
  let La := c.a.L + cross ra force
  let Lb := c.b.L - cross rb force
  let a2 : RigidBody :=
    { c.a with P := Pa, L := La, v := Pa / c.a.mass, omega := c.a.Iinv * La }
  let b2 : RigidBody :=
    { c.b with P := Pb, L := Lb, v := Pb / c.b.mass, omega := c.b.Iinv * Lb }
  { c with a := a2, b := b2 }

/-- `collision`: compute the impulse magnitude from the standard two-body
impulse formula and apply it, exactly as the source does. -/
def collision (c : Contact) (epsilon : ℚ) : Contact :=
  let padot := pt_velocity c.a c.p
  let pbdot := pt_velocity c.b c.p
  let n := c.n
  let ra := c.p - c.a.x
  let rb := c.p - c.b.x
  let vrel := dot n (padot - pbdot)
  let numerator := -(1 + epsilon) * vrel
  let term1 := 1 / c.a.mass
  let term2 := 1 / c.b.mass
  let term3 := dot n (cross (c.a.Iinv * cross ra n) ra)
  let term4 := dot n (cross (c.b.Iinv * cross rb n) rb)
  let j := numerator / (term1 + term2 + term3 + term4)
  applyImpulse c j

/-- The restitution value `double epsilon = 0.5;` fixed in `FindAllCollisions`. -/
def epsilonFAC : ℚ := 1 / 2

/-- One pass of the `for` loop inside `FindAllCollisions`: resolve every
currently colliding contact in list order and report whether any resolution
happened (`had_collision`). -/
def collisionPass : List Contact → List Contact × Bool
  | [] => ([], false)
  | c :: cs =>
      if colliding c then
        let rest := collisionPass cs
        (collision c epsilonFAC :: rest.1, true)
      else
        let rest := collisionPass cs
        (c :: rest.1, rest.2)

/-- The contact list after `k` full passes of the `do ... while` loop of
`FindAllCollisions`. -/
def passIter : ℕ → List Contact → List Contact
  | 0, cs => cs
  | k + 1, cs => passIter k (collisionPass cs).1

/-- The `do ... while (had_collision)` loop of `FindAllCollisions` terminates
on `cs` exactly when some pass reports no collision. -/
def findAllCollisionsTerminates (cs : List Contact) : Prop :=
  ∃ k, (collisionPass (passIter k cs)).2 = false

/-- A rigid body whose stored auxiliary velocities agree with its momenta:
`v = P / mass` and `omega = Iinv * L`, the relation `collision` re-establishes
after every impulse. -/
def RigidBody.consistent (b : RigidBody) : Prop :=
  b.v = b.P / b.mass ∧ b.omega = b.Iinv * b.L

/-! ## ODE integrators (`ODEsolver.cpp`)

The derivative callback `DerivFunc` writes the whole derivative vector into
its output buffer; it is modelled as a pure function from time and state to
the derivative vector. -/

/-- `using DerivFunc = std::function<...>` modelled as a pure callback. -/
def DerivFunc : Type := ℚ → List ℚ → List ℚ

/-- `const double eps = 1e-14;`, the loop tolerance of both solvers. -/
def odeEps : ℚ := 1 / 10 ^ 14

/-- One Euler step: `x_current[i] += m_stepSize * xdot[i]`. -/
def eulerStep (dxdt : DerivFunc) (h : ℚ) (t : ℚ) (x : List ℚ) : List ℚ :=
  List.zipWith (fun xi di => xi + h * di) x (dxdt t x)

/-- The final RK4 update loop:
`x_current[i] += (m_stepSize / 6.0) * (k1[i] + 2.0*k2[i] + 2.0*k3[i] + k4[i])`. -/
def rk4Combine (h : ℚ) : List ℚ → List ℚ → List ℚ → List ℚ → List ℚ → List ℚ
  | xi :: xs, a :: as, b :: bs, c :: cs, d :: ds =>
      (xi + h / 6 * (a + 2 * b + 2 * c + d)) :: rk4Combine h xs as bs cs ds
  | _, _, _, _, _ => []

/-- One RK4 step, with the four stage evaluations in source order. -/
def rk4Step (dxdt : DerivFunc) (h : ℚ) (t : ℚ) (x : List ℚ) : List ℚ :=
  let k1 := dxdt t x
  let xtemp1 := List.zipWith (fun xi ki => xi + 1 / 2 * h * ki) x k1
  let k2 := dxdt (t + 1 / 2 * h) xtemp1
  let xtemp2 := List.zipWith (fun xi ki => xi + 1 / 2 * h * ki) x k2
  let k3 := dxdt (t + 1 / 2 * h) xtemp2
  let xtemp3 := List.zipWith (fun xi ki => xi + h * ki) x k3
  let k4 := dxdt (t + h) xtemp3
  rk4Combine h x k1 k2 k3 k4

/-- The common `while (t_current + m_stepSize <= t1 + eps)` loop of both
solvers, parameterized by the per-step state update.  Returns the final
`t_current` and state. -/
def odeLoop (step : ℚ → List ℚ → List ℚ) (h t1 : ℚ) (hh : 0 < h)
    (t : ℚ) (x : List ℚ) : ℚ × List ℚ :=
  if t + h ≤ t1 + odeEps then
    odeLoop step h t1 hh (t + h) (step t x)
  else
    (t, x)
termination_by (⌈(t1 + odeEps - t) / h⌉).toNat
decreasing_by
  have hq : (1 : ℚ) ≤ (t1 + odeEps - t) / h := by
    rw [le_div_iff₀ hh]
    linarith
  have h1 : (1 : ℤ) ≤ ⌈(t1 + odeEps - t) / h⌉ := by
    exact_mod_cast Int.le_ceil_iff.mpr (by push_cast; linarith)
  have h2 : ⌈(t1 + odeEps - (t + h)) / h⌉ = ⌈(t1 + odeEps - t) / h⌉ - 1 := by
    have harg : (t1 + odeEps - (t + h)) / h = (t1 + odeEps - t) / h - 1 := by
      field_simp
      ring
    rw [harg, Int.ceil_sub_one]
  omega

/-- `EulerSolver`, carrying the positivity class invariant its constructor and
`setStepSize` establish. -/
structure EulerSolver where
  m_stepSize : ℚ
  stepPos : 0 < m_stepSize

/-- `RK4Solver`, with the same invariant. -/
structure RK4Solver where
  m_stepSize : ℚ
  stepPos : 0 < m_stepSize

/-- The `EulerSolver(double stepSize)` constructor. -/
def EulerSolver.init (stepSize : ℚ) : Except String EulerSolver :=
  if hs : stepSize ≤ 0 then .error "Step size must be positive"
  else .ok ⟨stepSize, by linarith⟩

/-- `EulerSolver::setStepSize`. -/
def EulerSolver.setStepSize (_s : EulerSolver) (stepSize : ℚ) :
    Except String EulerSolver :=
  if hs : stepSize ≤ 0 then .error "Step size must be positive"
  else .ok ⟨stepSize, by linarith⟩

/-- `EulerSolver::ode`: validate, then run the Euler loop; returns the final
state and the leftover time `t1 - t_current`. -/
def EulerSolver.ode (s : EulerSolver) (x0 : List ℚ) (t0 t1 : ℚ)
    (dxdt : DerivFunc) : Except String (List ℚ × ℚ) :=
  if x0 = [] then .error "Initial state vector cannot be empty"
  else if t1 ≤ t0 then .error "Final time must be greater than initial time"
  else
    let r := odeLoop (eulerStep dxdt s.m_stepSize) s.m_stepSize t1 s.stepPos t0 x0
    .ok (r.2, t1 - r.1)

/-- The `RK4Solver(double stepSize)` constructor. -/
def RK4Solver.init (stepSize : ℚ) : Except String RK4Solver :=
  if hs : stepSize ≤ 0 then .error "Step size must be positive"
  else .ok ⟨stepSize, by linarith⟩

/-- `RK4Solver::setStepSize`. -/
def RK4Solver.setStepSize (_s : RK4Solver) (stepSize : ℚ) :
    Except String RK4Solver :=
  if hs : stepSize ≤ 0 then .error "Step size must be positive"
  else .ok ⟨stepSize, by linarith⟩

/-- `RK4Solver::ode`. -/
def RK4Solver.ode (s : RK4Solver) (x0 : List ℚ) (t0 t1 : ℚ)
    (dxdt : DerivFunc) : Except String (List ℚ × ℚ) :=
  if x0 = [] then .error "Initial state vector cannot be empty"
  else if t1 ≤ t0 then .error "Final time must be greater than initial time"
  else
    let r := odeLoop (rk4Step dxdt s.m_stepSize) s.m_stepSize t1 s.stepPos t0 x0
    .ok (r.2, t1 - r.1)

/-- The closed set of solvers the factory can return. -/
inductive ODESolver where
  | euler : EulerSolver → ODESolver
  | rk4 : RK4Solver → ODESolver

/-- `createODESolver`: case-sensitive type-tag dispatch; the selected
constructor still checks the step size. -/
def createODESolver (solverType : String) (stepSize : ℚ) :
    Except String ODESolver :=
  if solverType = "euler" then (EulerSolver.init stepSize).map .euler
  else if solverType = "rk4" then (RK4Solver.init stepSize).map .rk4
  else .error ("Unknown solver type: " ++ solverType)

/-- The out-parameter protocol of `double ode(..., std::vector<double>& xEnd, ...)`:
the caller passes a buffer `xEnd`; a thrown `invalid_argument` leaves it
untouched (both throws precede any write), a successful call overwrites it
completely with the final state. -/
def EulerSolver.odeInto (s : EulerSolver) (xEnd : List ℚ) (x0 : List ℚ)
    (t0 t1 : ℚ) (dxdt : DerivFunc) : List ℚ × Option ℚ :=
  match s.ode x0 t0 t1 dxdt with
  | .error _ => (xEnd, none)
  | .ok (xe, rem) => (xe, some rem)

/-- Out-parameter protocol of `RK4Solver::ode`; see `EulerSolver.odeInto`. -/
def RK4Solver.odeInto (s : RK4Solver) (xEnd : List ℚ) (x0 : List ℚ)
    (t0 t1 : ℚ) (dxdt : DerivFunc) : List ℚ × Option ℚ :=
  match s.ode x0 t0 t1 dxdt with
  | .error _ => (xEnd, none)
  | .ok (xe, rem) => (xe, some rem)

/-- The state after `k` full steps of a step function starting at `(t0, x0)`:
step `k+1` is taken at time `t0 + k h`. -/
def stepIterate (step : ℚ → List ℚ → List ℚ) (h t0 : ℚ) (x0 : List ℚ) :
    ℕ → List ℚ
  | 0 => x0
  | k + 1 => step (t0 + k * h) (stepIterate step h t0 x0 k)

/-! ## Derivative engine (`DerivFunc.cpp`)

The `std::vector<double>` buffers become `List ℚ` arguments; an indexed write
`buf[i] = v` becomes `List.set`, an indexed read `buf[i]` becomes
`List.getD i 0` (all guarded reads are in range), and `std::vector::resize`
pads with zeros. -/

/-- `const int STATE_SIZE = 18;` -/
def STATE_SIZE : ℕ := 18

/-- `std::vector<double>::resize`: truncate, or pad with value-initialized
zeros. -/
def listResize (l : List ℚ) (nSize : ℕ) : List ℚ :=
  if nSize ≤ l.length then l.take nSize
  else l ++ List.replicate (nSize - l.length) 0

/-- A run of sequential indexed writes `buf[idx++] = v` starting at `off`. -/
def writeBlock : List ℚ → ℕ → List ℚ → List ℚ
  | l, _, [] => l
  | l, off, v :: vs => writeBlock (l.set off v) (off + 1) vs

/-- `ArrayToState`: copy 18 scalars out of the flat array at `offset` into the
per-body state (resized up to 18 if undersized). -/
def ArrayToState (y : List ℚ) (rigidBodyState : List ℚ) (offset : ℕ) : List ℚ :=
  let s := if rigidBodyState.length < STATE_SIZE then listResize rigidBodyState STATE_SIZE
           else rigidBodyState
  writeBlock s 0 ((List.range STATE_SIZE).map fun i => y.getD (offset + i) 0)

/-- `ComputeForceAndTorque`: resize the per-body state to the extended
24-scalar layout and write the constant gravity force and zero torque into
the scratch slots 18..23. -/
def ComputeForceAndTorque (_t : ℚ) (rigidBodyState : List ℚ) : List ℚ :=
  let s := if rigidBodyState.length < 24 then listResize rigidBodyState 24
           else rigidBodyState
  writeBlock s 18 [0, -981 / 100, 0, 0, 0, 0]

/-- `Star`: write the row-major skew-symmetric matrix of the input vector into
the output buffer; no-op unless the input has at least 3 and the output at
least 9 entries. -/
def Star (om omStar : List ℚ) : List ℚ :=
  if om.length < 3 ∨ omStar.length < 9 then omStar
  else
    let ax := om.getD 0 0
    let ay := om.getD 1 0
    let az := om.getD 2 0
    writeBlock omStar 0 [0, -az, ay, az, 0, -ax, -ay, ax, 0]

/-- `DdtStateToArray`: derivative of one 18-field body block, written into
`xdot` at `offset`.  Mass is the hardcoded `1.0` and the inverse inertia the
hardcoded identity, so the angular velocity equals the angular momentum. -/
def DdtStateToArray (rigidBodyState : List ℚ) (xdot : List ℚ) (offset : ℕ) :
    List ℚ :=
  if rigidBodyState.length < STATE_SIZE then xdot
  else
    let mass : ℚ := 1
    let Px := rigidBodyState.getD 12 0
    let Py := rigidBodyState.getD 13 0
    let Pz := rigidBodyState.getD 14 0
    let Lx := rigidBodyState.getD 15 0
    let Ly := rigidBodyState.getD 16 0
    let Lz := rigidBodyState.getD 17 0
    let vx := Px / mass
    let vy := Py / mass
    let vz := Pz / mass
    let omStar := Star [Lx, Ly, Lz] (List.replicate 9 0)
    let entry := fun i j =>
      omStar.getD (i * 3 + 0) 0 * rigidBodyState.getD (3 + 0 * 3 + j) 0
        + omStar.getD (i * 3 + 1) 0 * rigidBodyState.getD (3 + 1 * 3 + j) 0
        + omStar.getD (i * 3 + 2) 0 * rigidBodyState.getD (3 + 2 * 3 + j) 0
    let fx := if 24 ≤ rigidBodyState.length then rigidBodyState.getD 18 0 else 0
    let fy := if 24 ≤ rigidBodyState.length then rigidBodyState.getD 19 0 else -981 / 100
    let fz := if 24 ≤ rigidBodyState.length then rigidBodyState.getD 20 0 else 0
    let taux := if 24 ≤ rigidBodyState.length then rigidBodyState.getD 21 0 else 0
    let tauy := if 24 ≤ rigidBodyState.length then rigidBodyState.getD 22 0 else 0
    let tauz := if 24 ≤ rigidBodyState.length then rigidBodyState.getD 23 0 else 0
    writeBlock xdot offset
      [vx, vy, vz,
       entry 0 0, entry 0 1, entry 0 2,
       entry 1 0, entry 1 1, entry 1 2,
       entry 2 0, entry 2 1, entry 2 2,
       fx, fy, fz, taux, tauy, tauz]

/-- `Dxdt`: the top-level derivative callback.  The source fixes
`const int NBODIES = 1` and loops over bodies `0 .. NBODIES-1`, so only body
block 0 is ever processed; undersized vectors make it return the output buffer
unchanged. -/
def Dxdt (t : ℚ) (x : List ℚ) (xdot : List ℚ) : List ℚ :=
  let NBODIES : ℕ := 1
  if x.length < STATE_SIZE * NBODIES ∨ xdot.length < STATE_SIZE * NBODIES then
    xdot
  else
    (List.range NBODIES).foldl
      (fun xd i =>
        let bodyState := ArrayToState x (List.replicate STATE_SIZE 0) (i * STATE_SIZE)
        let bodyState2 := ComputeForceAndTorque t bodyState
        DdtStateToArray bodyState2 xd (i * STATE_SIZE))
      xdot

/-! ## Componentwise lemmas for the vector algebra -/

@[simp] theorem Triple.add_x (a b : Triple) : (a + b).x = a.x + b.x := rfl

@[simp] theorem Triple.add_y (a b : Triple) : (a + b).y = a.y + b.y := rfl

@[simp] theorem Triple.add_z (a b : Triple) : (a + b).z = a.z + b.z := rfl

@[simp] theorem Triple.sub_x (a b : Triple) : (a - b).x = a.x - b.x := rfl

@[simp] theorem Triple.sub_y (a b : Triple) : (a - b).y = a.y - b.y := rfl

@[simp] theorem Triple.sub_z (a b : Triple) : (a - b).z = a.z - b.z := rfl

@[simp] theorem Triple.neg_x (a : Triple) : (-a).x = -a.x := rfl

@[simp] theorem Triple.neg_y (a : Triple) : (-a).y = -a.y := rfl

@[simp] theorem Triple.neg_z (a : Triple) : (-a).z = -a.z := rfl

@[simp] theorem Triple.smul_x (c : ℚ) (a : Triple) : (c • a).x = c * a.x := rfl

@[simp] theorem Triple.smul_y (c : ℚ) (a : Triple) : (c • a).y = c * a.y := rfl

@[simp] theorem Triple.smul_z (c : ℚ) (a : Triple) : (c • a).z = c * a.z := rfl

@[simp] theorem Triple.div_x (a : Triple) (s : ℚ) : (a / s).x = a.x / s := rfl

@[simp] theorem Triple.div_y (a : Triple) (s : ℚ) : (a / s).y = a.y / s := rfl

@[simp] theorem Triple.div_z (a : Triple) (s : ℚ) : (a / s).z = a.z / s := rfl

@[simp] theorem Triple.zero_x : (0 : Triple).x = 0 := rfl

@[simp] theorem Triple.zero_y : (0 : Triple).y = 0 := rfl

@[simp] theorem Triple.zero_z : (0 : Triple).z = 0 := rfl

@[simp] theorem Mat3.hmul_def (m : Mat3) (v : Triple) : m * v = m.mulVec v := rfl

/-- `colliding` is the decision `vrel <= -THRESHOLD`: the two source tests
return false exactly on `vrel > -THRESHOLD`. -/
theorem colliding_iff (c : Contact) :
    colliding c = true ↔ vrelOf c ≤ -THRESHOLD := by
  unfold colliding vrelOf
  dsimp only
  split_ifs with h1 h2
  · simp only [Bool.false_eq_true, false_iff]
    intro h
    have := THRESHOLD
    unfold THRESHOLD at *
    linarith
  · simp only [Bool.false_eq_true, false_iff]
    linarith
  · simp only [true_iff]
    linarith

/-! ## Concrete bodies and contacts used as test inputs -/

/-- A body at the origin with the given mass and velocity, momentum consistent
with the velocity, no spin, identity inverse inertia. -/
def mkBody (m : ℚ) (vel : Triple) : RigidBody :=
  { mass := m, x := 0, v := vel, omega := 0, P := m • vel, L := 0, Iinv := Mat3.one }

/-- A contact whose relative normal velocity is exactly `-THRESHOLD`. -/
def cBoundary : Contact :=
  { a := mkBody 1 ⟨-1 / 1000000, 0, 0⟩, b := mkBody 1 0, p := 0, n := ⟨1, 0, 0⟩,
    ea := 0, eb := 0, vf := true }

/-- An asymmetric two-body contact (masses 2 and 3) used to instantiate the
conservation theorem. -/
def cSample : Contact :=
  { a := mkBody 2 ⟨-1, 1, 0⟩, b := mkBody 3 ⟨1, 0, 2⟩, p := ⟨0, 1, 0⟩,
    n := ⟨1, 0, 0⟩, ea := 0, eb := 0, vf := true }

/-! ## C1: conservation of momentum by `collision` -/

/-- `collision` is `applyImpulse` at the impulse magnitude given by the
two-body impulse formula. -/
theorem collision_eq_applyImpulse (c : Contact) (epsilon : ℚ) :
    collision c epsilon
      = applyImpulse c (-(1 + epsilon) * vrelOf c / impulseDenominator c) := rfl

/-- Equal-and-opposite impulse application conserves the pair totals of
linear momentum and of angular momentum about any fixed point `q`, whatever
the impulse magnitude `j`. -/
theorem applyImpulse_conserves (c : Contact) (j : ℚ) (q : Triple) :
    (applyImpulse c j).a.P + (applyImpulse c j).b.P = c.a.P + c.b.P ∧
    (applyImpulse c j).a.L + (applyImpulse c j).b.L
        + cross ((applyImpulse c j).a.x - q) (applyImpulse c j).a.P
        + cross ((applyImpulse c j).b.x - q) (applyImpulse c j).b.P
      = c.a.L + c.b.L + cross (c.a.x - q) c.a.P + cross (c.b.x - q) c.b.P := by
  constructor
  · ext <;> simp [applyImpulse, cross]
  · ext <;> simp [applyImpulse, cross] <;> ring

/-- C1: for any contact with positive masses and any restitution in `[0, 1]`,
`collision` conserves the total linear momentum of the pair, and the total
angular momentum of the pair about any fixed world point `q` (the sum of the
spin terms `L` and the orbital terms `(x - q) x P`), in exact arithmetic.
The impulse is applied with equal magnitude and opposite sign to the two
bodies, so this holds for every mass ratio. -/
theorem collision_conserves_momentum (c : Contact) (epsilon : ℚ) (q : Triple)
    (hma : 0 < c.a.mass) (hmb : 0 < c.b.mass)
    (he0 : 0 ≤ epsilon) (he1 : epsilon ≤ 1) :
    (collision c epsilon).a.P + (collision c epsilon).b.P = c.a.P + c.b.P ∧
    (collision c epsilon).a.L + (collision c epsilon).b.L
        + cross ((collision c epsilon).a.x - q) (collision c epsilon).a.P
        + cross ((collision c epsilon).b.x - q) (collision c epsilon).b.P
      = c.a.L + c.b.L + cross (c.a.x - q) c.a.P + cross (c.b.x - q) c.b.P := by
  rw [collision_eq_applyImpulse]
  exact applyImpulse_conserves c (-(1 + epsilon) * vrelOf c / impulseDenominator c) q

/-- C1 witness: the conservation theorem applied to the concrete contact
`cSample` with restitution `1/2` about the fixed point `(1, 2, 3)`. -/
theorem collision_conserves_momentum_witness :
    (collision cSample (1 / 2)).a.P + (collision cSample (1 / 2)).b.P
        = cSample.a.P + cSample.b.P ∧
    (collision cSample (1 / 2)).a.L + (collision cSample (1 / 2)).b.L
        + cross ((collision cSample (1 / 2)).a.x - ⟨1, 2, 3⟩) (collision cSample (1 / 2)).a.P
        + cross ((collision cSample (1 / 2)).b.x - ⟨1, 2, 3⟩) (collision cSample (1 / 2)).b.P
      = cSample.a.L + cSample.b.L + cross (cSample.a.x - ⟨1, 2, 3⟩) cSample.a.P
        + cross (cSample.b.x - ⟨1, 2, 3⟩) cSample.b.P :=
  collision_conserves_momentum cSample (1 / 2) ⟨1, 2, 3⟩
    (by norm_num [cSample, mkBody]) (by norm_num [cSample, mkBody])
    (by norm_num) (by norm_num)

/-! ## C2: classification by `isColliding` (`colliding`) -/

/-- C2 (amended): `colliding` returns true exactly when
`vrel <= -THRESHOLD`, and false exactly when `vrel > -THRESHOLD`; the
resting-contact band that yields false is the half-open band
`-THRESHOLD < vrel <= THRESHOLD`, so the boundary `vrel = -THRESHOLD` itself
is classified as colliding. -/
theorem isColliding_classification (c : Contact) :
    (colliding c = true ↔ vrelOf c ≤ -THRESHOLD) ∧
    (colliding c = false ↔ -THRESHOLD < vrelOf c) := by
  refine ⟨colliding_iff c, ?_⟩
  rcases (colliding_iff c) with ⟨h1, h2⟩
  constructor
  · intro hfalse
    by_contra hlt
    push_neg at hlt
    have := h2 hlt
    simp [hfalse] at this
  · intro hgt
    rcases Bool.eq_false_or_eq_true (colliding c) with ht | hf
    · have := h1 ht
      linarith
    · exact hf

/-- C2 counterexample: at the concrete contact `cBoundary` the relative normal
velocity is exactly `-THRESHOLD`, which lies in the band `|vrel| <= THRESHOLD`
where the claim requires `isColliding` to return false, yet the source returns
true (its second test `vrel > -THRESHOLD` fails on equality). -/
theorem isColliding_boundary_counterexample :
    vrelOf cBoundary = -THRESHOLD ∧ colliding cBoundary = true := by
  have hv : vrelOf cBoundary = -THRESHOLD := by
    norm_num [vrelOf, cBoundary, mkBody, pt_velocity, dot, cross, THRESHOLD,
      Mat3.one]
  refine ⟨hv, ?_⟩
  rw [colliding_iff, hv]

/-! ## Sequential-write lemmas for `writeBlock` -/

theorem writeBlock_cons_succ (vs : List ℚ) : ∀ (a : ℚ) (l : List ℚ) (off : ℕ),
    writeBlock (a :: l) (off + 1) vs = a :: writeBlock l off vs := by
  induction vs with
  | nil => intro a l off; rfl
  | cons v vs ih =>
      intro a l off
      rw [writeBlock, writeBlock]
      exact ih a (l.set off v) (off + 1)

/-- Writing `vs` sequentially from index 0 into a buffer at least as long
replaces its prefix and keeps the tail. -/
theorem writeBlock_zero (vs : List ℚ) : ∀ l : List ℚ, vs.length ≤ l.length →
    writeBlock l 0 vs = vs ++ l.drop vs.length := by
  induction vs with
  | nil => intro l _; simp [writeBlock]
  | cons v vs ih =>
      intro l h
      cases l with
      | nil => simp at h
      | cons a l2 =>
          rw [writeBlock]
          show writeBlock (v :: l2) (0 + 1) vs = _
          rw [writeBlock_cons_succ]
          rw [ih l2 (by simpa using h)]
          simp

/-! ## C9: the skew-symmetric star matrix -/

/-- C9: when the input has at least 3 entries and the output buffer at least
9, `Star` writes exactly the row-major skew matrix of the first three input
entries into the first nine output slots, leaving the rest of the buffer;
when either size precondition fails it returns the buffer unchanged; and
`Star` of `(1, 2, 3)` is exactly `[0, -3, 2, 3, 0, -1, -2, 1, 0]`. -/
theorem starMatrix_correct :
    (∀ om omStar : List ℚ, 3 ≤ om.length → 9 ≤ omStar.length →
        Star om omStar =
          [0, -om.getD 2 0, om.getD 1 0,
           om.getD 2 0, 0, -om.getD 0 0,
           -om.getD 1 0, om.getD 0 0, 0] ++ omStar.drop 9) ∧
    (∀ om omStar : List ℚ, om.length < 3 ∨ omStar.length < 9 →
        Star om omStar = omStar) ∧
    Star [1, 2, 3] (List.replicate 9 0) = [0, -3, 2, 3, 0, -1, -2, 1, 0] := by
  have hmain : ∀ om omStar : List ℚ, 3 ≤ om.length → 9 ≤ omStar.length →
      Star om omStar =
        [0, -om.getD 2 0, om.getD 1 0,
         om.getD 2 0, 0, -om.getD 0 0,
         -om.getD 1 0, om.getD 0 0, 0] ++ omStar.drop 9 := by
    intro om omStar h3 h9
    unfold Star
    rw [if_neg (by push_neg; omega)]
    exact writeBlock_zero _ _ (by simpa using h9)
  refine ⟨hmain, ?_, ?_⟩
  · intro om omStar h
    unfold Star
    rw [if_pos h]
  · rw [hmain [1, 2, 3] (List.replicate 9 0) (by simp) (by simp)]
    simp [List.getD]

/-- C9 witness: the main clause of `starMatrix_correct` applied to the
concrete input `(1, 2, 3)` and a 10-entry output buffer. -/
theorem starMatrix_correct_witness :
    Star [1, 2, 3] (List.replicate 10 0) =
      [0, -3, 2, 3, 0, -1, -2, 1, 0] ++ (List.replicate 10 (0 : ℚ)).drop 9 := by
  have h := starMatrix_correct.1 [1, 2, 3] (List.replicate 10 0) (by simp) (by simp)
  simpa [List.getD] using h

/-! ## C8: degenerate contacts complete without any error signal -/

/-- A contact whose normal is the zero vector, between two unit-mass bodies in
head-on approach. -/
def cZeroNormal : Contact :=
  { a := mkBody 1 ⟨-1, 0, 0⟩, b := mkBody 1 ⟨1, 0, 0⟩, p := 0, n := 0,
    ea := 0, eb := 0, vf := true }

/-- C8: `collision` performs no validity check at all; it has no error
channel.  On the degenerate contact `cZeroNormal` (zero-length normal,
positive masses) it completes normally and leaves both bodies exactly
unchanged, instead of failing with a detectable error as the claim requires.
(With a zero mass the C++ code likewise completes, dividing by zero and
propagating non-finite values into the momenta.) -/
theorem collision_degenerate_no_error :
    cZeroNormal.n = 0 ∧ 0 < cZeroNormal.a.mass ∧ 0 < cZeroNormal.b.mass ∧
    collision cZeroNormal (1 / 2) = cZeroNormal := by
  refine ⟨rfl, by norm_num [cZeroNormal, mkBody], by norm_num [cZeroNormal, mkBody], ?_⟩
  rw [collision_eq_applyImpulse]
  simp [applyImpulse, vrelOf, impulseDenominator, cZeroNormal, mkBody,
    pt_velocity, dot, cross, Mat3.mulVec, Mat3.one]
  refine ⟨⟨?_, ?_, ?_, ?_⟩, ?_, ?_, ?_, ?_⟩ <;> (ext <;> simp)

/-! ## C4: InvalidArgument checks of the integrator API -/

/-- C4: the constructors and `setStepSize` of both solvers succeed exactly on
a positive step size, `ode` of both solvers succeeds exactly on a non-empty
initial state with a forward time interval, and the factory succeeds exactly
on the case-sensitive tags `euler` and `rk4` (with a positive step size for
the constructor it invokes); every other input fails with an
`invalid_argument` error and is never clamped or defaulted. -/
theorem invalidArgument_checks :
    (∀ h : ℚ, (∃ s, EulerSolver.init h = .ok s) ↔ 0 < h) ∧
    (∀ h : ℚ, (∃ s, RK4Solver.init h = .ok s) ↔ 0 < h) ∧
    (∀ (s : EulerSolver) (h : ℚ), (∃ s2, s.setStepSize h = .ok s2) ↔ 0 < h) ∧
    (∀ (s : RK4Solver) (h : ℚ), (∃ s2, s.setStepSize h = .ok s2) ↔ 0 < h) ∧
    (∀ (s : EulerSolver) (x0 : List ℚ) (t0 t1 : ℚ) (f : DerivFunc),
        (∃ v, s.ode x0 t0 t1 f = .ok v) ↔ (x0 ≠ [] ∧ t0 < t1)) ∧
    (∀ (s : RK4Solver) (x0 : List ℚ) (t0 t1 : ℚ) (f : DerivFunc),
        (∃ v, s.ode x0 t0 t1 f = .ok v) ↔ (x0 ≠ [] ∧ t0 < t1)) ∧
    (∀ (tag : String) (h : ℚ),
        (∃ r, createODESolver tag h = .ok r) ↔
          ((tag = "euler" ∨ tag = "rk4") ∧ 0 < h)) := by
  have heuler : ∀ h : ℚ, (∃ s, EulerSolver.init h = .ok s) ↔ 0 < h := by
    intro h
    unfold EulerSolver.init
    split_ifs with hs
    · exact iff_of_false (by rintro ⟨s, hcontra⟩; cases hcontra) (by linarith)
    · exact iff_of_true ⟨_, rfl⟩ (by linarith)
  have hrk4 : ∀ h : ℚ, (∃ s, RK4Solver.init h = .ok s) ↔ 0 < h := by
    intro h
    unfold RK4Solver.init
    split_ifs with hs
    · exact iff_of_false (by rintro ⟨s, hcontra⟩; cases hcontra) (by linarith)
    · exact iff_of_true ⟨_, rfl⟩ (by linarith)
  refine ⟨heuler, hrk4, ?_, ?_, ?_, ?_, ?_⟩
  · intro s h
    unfold EulerSolver.setStepSize
    split_ifs with hs
    · exact iff_of_false (by rintro ⟨s2, hcontra⟩; cases hcontra) (by linarith)
    · exact iff_of_true ⟨_, rfl⟩ (by linarith)
  · intro s h
    unfold RK4Solver.setStepSize
    split_ifs with hs
    · exact iff_of_false (by rintro ⟨s2, hcontra⟩; cases hcontra) (by linarith)
    · exact iff_of_true ⟨_, rfl⟩ (by linarith)
  · intro s x0 t0 t1 f
    unfold EulerSolver.ode
    split_ifs with h1 h2
    · exact iff_of_false (by rintro ⟨v, hcontra⟩; cases hcontra) (by simp [h1])
    · exact iff_of_false (by rintro ⟨v, hcontra⟩; cases hcontra)
        (by rintro ⟨-, hlt⟩; linarith)
    · exact iff_of_true ⟨_, rfl⟩ ⟨h1, not_le.mp h2⟩
  · intro s x0 t0 t1 f
    unfold RK4Solver.ode
    split_ifs with h1 h2
    · exact iff_of_false (by rintro ⟨v, hcontra⟩; cases hcontra) (by simp [h1])
    · exact iff_of_false (by rintro ⟨v, hcontra⟩; cases hcontra)
        (by rintro ⟨-, hlt⟩; linarith)
    · exact iff_of_true ⟨_, rfl⟩ ⟨h1, not_le.mp h2⟩
  · intro tag h
    unfold createODESolver
    split_ifs with h1 h2
    · rw [h1]
      constructor
      · rintro ⟨r, hr⟩
        rcases hok : EulerSolver.init h with msg | s
        · rw [hok] at hr; cases hr
        · exact ⟨by simp, (heuler h).mp ⟨s, hok⟩⟩
      · rintro ⟨-, hpos⟩
        rcases (heuler h).mpr hpos with ⟨s, hok⟩
        exact ⟨.euler s, by rw [hok]; rfl⟩
    · rw [h2]
      constructor
      · rintro ⟨r, hr⟩
        rcases hok : RK4Solver.init h with msg | s
        · rw [hok] at hr; cases hr
        · exact ⟨by simp, (hrk4 h).mp ⟨s, hok⟩⟩
      · rintro ⟨-, hpos⟩
        rcases (hrk4 h).mpr hpos with ⟨s, hok⟩
        exact ⟨.rk4 s, by rw [hok]; rfl⟩
    · exact iff_of_false (by rintro ⟨r, hcontra⟩; cases hcontra)
        (by rintro ⟨hcase, -⟩; rcases hcase with hh | hh <;> exact absurd hh (by assumption))

/-! ## C5: the RK4 step against the four-stage formula of the spec -/

/-- Componentwise vector sum. -/
def vecAdd (xs ys : List ℚ) : List ℚ := List.zipWith (· + ·) xs ys

/-- Componentwise scaling. -/
def vecScale (c : ℚ) (xs : List ℚ) : List ℚ := xs.map (c * ·)

/-- The RK4 step written exactly as the spec states it:
`k1 = f(t, x)`, `k2 = f(t + h/2, x + h k1/2)`, `k3 = f(t + h/2, x + h k2/2)`,
`k4 = f(t + h, x + h k3)`, result `x + (h/6)(k1 + 2 k2 + 2 k3 + k4)`.
This is the independent spec-side definition compared against the embedded
`rk4Step`. -/
def rk4StepSpec (f : DerivFunc) (h t : ℚ) (x : List ℚ) : List ℚ :=
  let k1 := f t x
  let k2 := f (t + h / 2) (vecAdd x (vecScale (h / 2) k1))
  let k3 := f (t + h / 2) (vecAdd x (vecScale (h / 2) k2))
  let k4 := f (t + h) (vecAdd x (vecScale h k3))
  vecAdd x (vecScale (h / 6)
    (vecAdd (vecAdd k1 (vecScale 2 k2)) (vecAdd (vecScale 2 k3) k4)))

/-- The final RK4 update loop agrees with the vector formula
`x + (h/6)(k1 + 2 k2 + 2 k3 + k4)`. -/
theorem rk4Combine_eq (h : ℚ) : ∀ x k1 k2 k3 k4 : List ℚ,
    rk4Combine h x k1 k2 k3 k4 =
      List.zipWith (· + ·) x
        ((List.zipWith (· + ·)
            (List.zipWith (· + ·) k1 (k2.map (2 * ·)))
            (List.zipWith (· + ·) (k3.map (2 * ·)) k4)).map (h / 6 * ·)) := by
  intro x k1 k2 k3 k4
  induction x generalizing k1 k2 k3 k4 with
  | nil => simp [rk4Combine]
  | cons a xs ih =>
      cases k1 with
      | nil => simp [rk4Combine]
      | cons b k1 =>
          cases k2 with
          | nil => simp [rk4Combine]
          | cons c k2 =>
              cases k3 with
              | nil => simp [rk4Combine]
              | cons d k3 =>
                  cases k4 with
                  | nil => simp [rk4Combine]
                  | cons e k4 =>
                      simp only [rk4Combine, List.map_cons,
                        List.zipWith_cons_cons, List.cons.injEq]
                      exact ⟨by ring, ih k1 k2 k3 k4⟩

/-- C5: each full RK4 step of the integrator computes exactly the four
stages and the combined update stated by the spec: the embedded source step
`rk4Step` coincides with the spec formula `rk4StepSpec` for every derivative
callback, step size, time and state. -/
theorem rk4Step_matches_spec (f : DerivFunc) (h t : ℚ) (x : List ℚ) :
    rk4Step f h t x = rk4StepSpec f h t x := by
  have hc : (fun xi ki : ℚ => xi + 1 / 2 * h * ki) = fun xi ki : ℚ => xi + h / 2 * ki := by
    funext p q
    ring
  have ht : t + 1 / 2 * h = t + h / 2 := by ring
  simp only [rk4Step, rk4StepSpec, vecAdd, vecScale, List.zipWith_map_right,
    rk4Combine_eq, hc, ht]

/-! ## C3: whole steps only, and the leftover-time contract -/

theorem stepIterate_shift (step : ℚ → List ℚ → List ℚ) (h t : ℚ) (x : List ℚ) :
    ∀ N : ℕ, stepIterate step h (t + h) (step t x) N = stepIterate step h t x (N + 1) := by
  intro N
  induction N with
  | zero =>
      show step t x = step (t + (0 : ℕ) * h) x
      norm_num
  | succ n ih =>
      show step (t + h + n * h) _ = step (t + (n + 1 : ℕ) * h) _
      rw [ih]
      congr 1
      push_cast
      ring

/-- The solver loop takes some whole number `N` of steps of size `h`: it ends
at time `t + N h` with the `N`-fold iterate of the step function. -/
theorem odeLoop_spec (step : ℚ → List ℚ → List ℚ) (h t1 : ℚ) (hh : 0 < h) :
    ∀ (t : ℚ) (x : List ℚ), ∃ N : ℕ,
      odeLoop step h t1 hh t x = (t + N * h, stepIterate step h t x N) := by
  intro t x
  induction t, x using odeLoop.induct step h t1 hh with
  | case1 t x hcond ih =>
      obtain ⟨N, hN⟩ := ih
      refine ⟨N + 1, ?_⟩
      rw [odeLoop, if_pos hcond, hN, stepIterate_shift]
      congr 1
      push_cast
      ring
  | case2 t x hcond =>
      refine ⟨0, ?_⟩
      rw [odeLoop, if_neg hcond]
      norm_num [stepIterate]

/-- C3 (amended): both integrators advance only in whole steps of the
configured step size and never take a partial step: the returned leftover
time is `t1 - (t0 + N h)` where `N` is the number of full steps taken, and
the returned state is the `N`-fold step iterate of `x0`.  When
`t0 + h > t1 + 1e-14` (the loop epsilon), zero steps are taken, the leftover
equals `t1 - t0` and the state is returned unchanged; the original claim's
zero-step condition `h > t1 - t0` is off by the epsilon `1e-14`, inside
which one step is still taken. -/
theorem ode_whole_steps :
    (∀ (s : EulerSolver) (x0 : List ℚ) (t0 t1 : ℚ) (f : DerivFunc),
        x0 ≠ [] → t0 < t1 →
        (∃ N : ℕ, s.ode x0 t0 t1 f =
            .ok (stepIterate (eulerStep f s.m_stepSize) s.m_stepSize t0 x0 N,
              t1 - (t0 + N * s.m_stepSize))) ∧
        (t1 + odeEps < t0 + s.m_stepSize → s.ode x0 t0 t1 f = .ok (x0, t1 - t0))) ∧
    (∀ (s : RK4Solver) (x0 : List ℚ) (t0 t1 : ℚ) (f : DerivFunc),
        x0 ≠ [] → t0 < t1 →
        (∃ N : ℕ, s.ode x0 t0 t1 f =
            .ok (stepIterate (rk4Step f s.m_stepSize) s.m_stepSize t0 x0 N,
              t1 - (t0 + N * s.m_stepSize))) ∧
        (t1 + odeEps < t0 + s.m_stepSize → s.ode x0 t0 t1 f = .ok (x0, t1 - t0))) := by
  constructor
  · intro s x0 t0 t1 f hx ht
    unfold EulerSolver.ode
    rw [if_neg hx, if_neg (by linarith)]
    constructor
    · obtain ⟨N, hN⟩ := odeLoop_spec (eulerStep f s.m_stepSize) s.m_stepSize t1 s.stepPos t0 x0
      exact ⟨N, by rw [hN]⟩
    · intro hbig
      rw [odeLoop, if_neg (by linarith)]
  · intro s x0 t0 t1 f hx ht
    unfold RK4Solver.ode
    rw [if_neg hx, if_neg (by linarith)]
    constructor
    · obtain ⟨N, hN⟩ := odeLoop_spec (rk4Step f s.m_stepSize) s.m_stepSize t1 s.stepPos t0 x0
      exact ⟨N, by rw [hN]⟩
    · intro hbig
      rw [odeLoop, if_neg (by linarith)]

/-- A step size of 2 for the witness. -/
def solverTwo : EulerSolver := ⟨2, by norm_num⟩

/-- C3 witness: the whole-step theorem applied to the Euler solver with step
size 2 on the interval `[0, 1]`; since `1 + 1e-14 < 0 + 2`, zero steps are
taken, the state `[0]` is returned unchanged and the leftover is `1`. -/
theorem ode_whole_steps_witness :
    (∃ N : ℕ, solverTwo.ode [0] 0 1 (fun _ _ => [1]) =
        .ok (stepIterate (eulerStep (fun _ _ => [1]) solverTwo.m_stepSize)
          solverTwo.m_stepSize 0 [0] N, 1 - (0 + N * solverTwo.m_stepSize))) ∧
    (1 + odeEps < 0 + solverTwo.m_stepSize →
      solverTwo.ode [0] 0 1 (fun _ _ => [1]) = .ok ([0], 1 - 0)) :=
  ode_whole_steps.1 solverTwo [0] 0 1 (fun _ _ => [1]) (by simp) (by norm_num)

/-- A step size exceeding the interval `[0, 1]` by `1e-15`, inside the loop
epsilon `1e-14`. -/
def cSliverSolver : EulerSolver := ⟨1 + 1 / 10 ^ 15, by norm_num⟩

/-- C3 counterexample: with step size `1 + 1e-15`, strictly larger than
`t1 - t0 = 1`, the Euler loop still takes one full step (its guard compares
against `t1 + 1e-14`), so the output state differs from `x0` and the leftover
time is the negative `-1e-15` rather than `t1 - t0` as the claim requires. -/
theorem ode_sliver_counterexample :
    1 - 0 < cSliverSolver.m_stepSize ∧
    cSliverSolver.ode [0] 0 1 (fun _ _ => [1]) =
      .ok ([1 + 1 / 10 ^ 15], -(1 / 10 ^ 15)) := by
  constructor
  · norm_num [cSliverSolver]
  · unfold EulerSolver.ode
    rw [if_neg (by simp), if_neg (by norm_num)]
    have h1 : odeLoop (eulerStep (fun _ _ => [1]) cSliverSolver.m_stepSize)
        cSliverSolver.m_stepSize 1 cSliverSolver.stepPos 0 [0]
        = (1 + 1 / 10 ^ 15, [1 + 1 / 10 ^ 15]) := by
      rw [odeLoop, if_pos (by norm_num [cSliverSolver, odeEps])]
      rw [odeLoop, if_neg (by norm_num [cSliverSolver, odeEps])]
      norm_num [cSliverSolver, eulerStep]
    rw [h1]
    norm_num

/-! ## C10: the initial state is read-only and the output buffer is untouched
on validation failure -/

/-- C10: the initial state `x0` enters the embedding by value and is never
written; on either `invalid_argument` rejection (empty `x0` or `t1 <= t0`)
the caller's output buffer is returned exactly as passed, because both
validations precede every write to it; and on success the result is
independent of the buffer's prior contents (it is completely overwritten). -/
theorem ode_output_frame :
    (∀ (s : EulerSolver) (xEnd x0 : List ℚ) (t0 t1 : ℚ) (f : DerivFunc),
        x0 = [] ∨ t1 ≤ t0 → s.odeInto xEnd x0 t0 t1 f = (xEnd, none)) ∧
    (∀ (s : RK4Solver) (xEnd x0 : List ℚ) (t0 t1 : ℚ) (f : DerivFunc),
        x0 = [] ∨ t1 ≤ t0 → s.odeInto xEnd x0 t0 t1 f = (xEnd, none)) ∧
    (∀ (s : EulerSolver) (xe1 xe2 x0 : List ℚ) (t0 t1 : ℚ) (f : DerivFunc),
        x0 ≠ [] → t0 < t1 → s.odeInto xe1 x0 t0 t1 f = s.odeInto xe2 x0 t0 t1 f) ∧
    (∀ (s : RK4Solver) (xe1 xe2 x0 : List ℚ) (t0 t1 : ℚ) (f : DerivFunc),
        x0 ≠ [] → t0 < t1 → s.odeInto xe1 x0 t0 t1 f = s.odeInto xe2 x0 t0 t1 f) := by
  refine ⟨?_, ?_, ?_, ?_⟩
  · intro s xEnd x0 t0 t1 f hbad
    unfold EulerSolver.odeInto EulerSolver.ode
    split_ifs with h1 h2
    · rfl
    · rfl
    · rcases hbad with hb | hb
      · exact absurd hb h1
      · exact absurd hb h2
  · intro s xEnd x0 t0 t1 f hbad
    unfold RK4Solver.odeInto RK4Solver.ode
    split_ifs with h1 h2
    · rfl
    · rfl
    · rcases hbad with hb | hb
      · exact absurd hb h1
      · exact absurd hb h2
  · intro s xe1 xe2 x0 t0 t1 f hx ht
    unfold EulerSolver.odeInto EulerSolver.ode
    split_ifs with h1 h2
    · exact absurd h1 hx
    · linarith
    · rfl
  · intro s xe1 xe2 x0 t0 t1 f hx ht
    unfold RK4Solver.odeInto RK4Solver.ode
    split_ifs with h1 h2
    · exact absurd h1 hx
    · linarith
    · rfl

/-- C10 witness: the error-path clause applied to the Euler solver with step
size 2, a sentinel buffer `[7]`, an empty initial state: the buffer comes
back exactly as passed and no result is produced. -/
theorem ode_output_frame_witness :
    solverTwo.odeInto [7] [] 0 1 (fun _ _ => [1]) = ([7], none) :=
  ode_output_frame.1 solverTwo [7] [] 0 1 (fun _ _ => [1]) (Or.inl rfl)

/-! ## C6: `Dxdt` processes only body block 0 -/

/-- The derivative block `Dxdt` computes for body 0, in clean form: position
derivative is the momentum (mass is the hardcoded 1), rotation derivative is
`star(L) * R` (identity inverse inertia), momentum derivative the gravity
force `(0, -9.81, 0)`, angular momentum derivative the zero torque. -/
def dxdtBlock (x : List ℚ) : List ℚ :=
  let Px := x.getD 12 0
  let Py := x.getD 13 0
  let Pz := x.getD 14 0
  let Lx := x.getD 15 0
  let Ly := x.getD 16 0
  let Lz := x.getD 17 0
  let R := fun k j => x.getD (3 + 3 * k + j) 0
  [Px, Py, Pz,
   -Lz * R 1 0 + Ly * R 2 0, -Lz * R 1 1 + Ly * R 2 1, -Lz * R 1 2 + Ly * R 2 2,
   Lz * R 0 0 - Lx * R 2 0, Lz * R 0 1 - Lx * R 2 1, Lz * R 0 2 - Lx * R 2 2,
   -Ly * R 0 0 + Lx * R 1 0, -Ly * R 0 1 + Lx * R 1 1, -Ly * R 0 2 + Lx * R 1 2,
   0, -981 / 100, 0, 0, 0, 0]

/-- Writing into a buffer at least as long as the written block keeps the
buffer length. -/
theorem writeBlock_append_left (vs : List ℚ) : ∀ l1 l2 : List ℚ,
    writeBlock (l1 ++ l2) l1.length vs = l1 ++ writeBlock l2 0 vs := by
  intro l1
  induction l1 with
  | nil => intro l2; simp
  | cons a l1 ih =>
      intro l2
      show writeBlock (a :: (l1 ++ l2)) (l1.length + 1) vs = _
      rw [writeBlock_cons_succ, ih]
      rfl

/-- `ArrayToState` at offset 0 into a fresh 18-slot buffer yields the first
18 entries of the flat array. -/
theorem ArrayToState_spec (x : List ℚ) :
    ArrayToState x (List.replicate STATE_SIZE 0) 0 =
      [x.getD 0 0, x.getD 1 0, x.getD 2 0, x.getD 3 0, x.getD 4 0, x.getD 5 0,
       x.getD 6 0, x.getD 7 0, x.getD 8 0, x.getD 9 0, x.getD 10 0, x.getD 11 0,
       x.getD 12 0, x.getD 13 0, x.getD 14 0, x.getD 15 0, x.getD 16 0,
       x.getD 17 0] := by
  unfold ArrayToState
  rw [if_neg (by simp [STATE_SIZE])]
  rw [writeBlock_zero _ _ (by simp [STATE_SIZE])]
  have hr : List.range STATE_SIZE =
      [0, 1, 2, 3, 4, 5, 6, 7, 8, 9, 10, 11, 12, 13, 14, 15, 16, 17] := rfl
  rw [hr]
  simp [STATE_SIZE]

/-- `ComputeForceAndTorque` on an 18-entry state appends exactly the gravity
force and zero torque scratch block. -/
theorem ComputeForceAndTorque_spec (t : ℚ) (l : List ℚ) (h : l.length = 18) :
    ComputeForceAndTorque t l = l ++ [0, -981 / 100, 0, 0, 0, 0] := by
  unfold ComputeForceAndTorque
  rw [if_pos (by omega)]
  unfold listResize
  rw [if_neg (by omega)]
  have h6 : 24 - l.length = 6 := by omega
  rw [h6]
  have h18 : (18 : ℕ) = l.length := h.symm
  rw [show List.replicate 6 (0 : ℚ) = [0, 0, 0, 0, 0, 0] from rfl, h18,
    writeBlock_append_left]
  rw [writeBlock_zero _ _ (by simp)]
  rfl

/-- `DdtStateToArray` at offset 0 on a 24-entry extended state writes the raw
derivative block (with the source's literal arithmetic shapes) and keeps the
tail of the output buffer. -/
theorem DdtStateToArray_spec (s xdot : List ℚ) (hs : s.length = 24)
    (hxd : 18 ≤ xdot.length) :
    DdtStateToArray s xdot 0 =
      [s.getD 12 0 / 1, s.getD 13 0 / 1, s.getD 14 0 / 1,
       0 * s.getD 3 0 + -(s.getD 17 0) * s.getD 6 0 + s.getD 16 0 * s.getD 9 0,
       0 * s.getD 4 0 + -(s.getD 17 0) * s.getD 7 0 + s.getD 16 0 * s.getD 10 0,
       0 * s.getD 5 0 + -(s.getD 17 0) * s.getD 8 0 + s.getD 16 0 * s.getD 11 0,
       s.getD 17 0 * s.getD 3 0 + 0 * s.getD 6 0 + -(s.getD 15 0) * s.getD 9 0,
       s.getD 17 0 * s.getD 4 0 + 0 * s.getD 7 0 + -(s.getD 15 0) * s.getD 10 0,
       s.getD 17 0 * s.getD 5 0 + 0 * s.getD 8 0 + -(s.getD 15 0) * s.getD 11 0,
       -(s.getD 16 0) * s.getD 3 0 + s.getD 15 0 * s.getD 6 0 + 0 * s.getD 9 0,
       -(s.getD 16 0) * s.getD 4 0 + s.getD 15 0 * s.getD 7 0 + 0 * s.getD 10 0,
       -(s.getD 16 0) * s.getD 5 0 + s.getD 15 0 * s.getD 8 0 + 0 * s.getD 11 0,
       s.getD 18 0, s.getD 19 0, s.getD 20 0,
       s.getD 21 0, s.getD 22 0, s.getD 23 0] ++ xdot.drop 18 := by
  unfold DdtStateToArray
  rw [if_neg (by simp only [STATE_SIZE]; omega)]
  have h24 : 24 ≤ s.length := by omega
  simp only [if_pos h24]
  have hstar : Star [s.getD 15 0, s.getD 16 0, s.getD 17 0]
      (List.replicate 9 0) =
      [0, -(s.getD 17 0), s.getD 16 0, s.getD 17 0, 0, -(s.getD 15 0),
       -(s.getD 16 0), s.getD 15 0, 0] := by
    unfold Star
    rw [if_neg (by simp)]
    rw [writeBlock_zero _ _ (by simp)]
    rfl
  rw [hstar]
  rw [writeBlock_zero _ _ (by simpa using hxd)]
  rfl

/-- `Dxdt` on sufficiently long vectors writes exactly one 18-entry block at
offset 0 (in raw arithmetic form) and keeps the rest of the output buffer. -/
theorem Dxdt_raw (t : ℚ) (x xdot : List ℚ) (hx : 18 ≤ x.length)
    (hxd : 18 ≤ xdot.length) :
    Dxdt t x xdot =
      [x.getD 12 0 / 1, x.getD 13 0 / 1, x.getD 14 0 / 1,
       0 * x.getD 3 0 + -(x.getD 17 0) * x.getD 6 0 + x.getD 16 0 * x.getD 9 0,
       0 * x.getD 4 0 + -(x.getD 17 0) * x.getD 7 0 + x.getD 16 0 * x.getD 10 0,
       0 * x.getD 5 0 + -(x.getD 17 0) * x.getD 8 0 + x.getD 16 0 * x.getD 11 0,
       x.getD 17 0 * x.getD 3 0 + 0 * x.getD 6 0 + -(x.getD 15 0) * x.getD 9 0,
       x.getD 17 0 * x.getD 4 0 + 0 * x.getD 7 0 + -(x.getD 15 0) * x.getD 10 0,
       x.getD 17 0 * x.getD 5 0 + 0 * x.getD 8 0 + -(x.getD 15 0) * x.getD 11 0,
       -(x.getD 16 0) * x.getD 3 0 + x.getD 15 0 * x.getD 6 0 + 0 * x.getD 9 0,
       -(x.getD 16 0) * x.getD 4 0 + x.getD 15 0 * x.getD 7 0 + 0 * x.getD 10 0,
       -(x.getD 16 0) * x.getD 5 0 + x.getD 15 0 * x.getD 8 0 + 0 * x.getD 11 0,
       0, -981 / 100, 0, 0, 0, 0] ++ xdot.drop 18 := by
  unfold Dxdt
  rw [if_neg (by simp only [STATE_SIZE, Nat.mul_one]; omega)]
  rw [show List.range 1 = [0] from rfl]
  simp only [List.foldl_cons, List.foldl_nil, Nat.zero_mul]
  rw [ArrayToState_spec x]
  rw [ComputeForceAndTorque_spec t _ (by rfl)]
  rw [DdtStateToArray_spec _ xdot (by rfl) hxd]
  rfl

/-- C6 (amended): `Dxdt` hardcodes `NBODIES = 1`: for any input and output
vectors of length at least 18 (in particular any whole multiple of 18) it
writes only the derivative block of body 0 — position derivative equal to the
momentum (hardcoded unit mass), rotation derivative the skew matrix of the
angular momentum (hardcoded identity inverse inertia) times the rotation
matrix, momentum derivative the evaluated gravity force `(0, -9.81, 0)`,
angular momentum derivative the evaluated zero torque — and leaves every
entry of the output from index 18 on unchanged; blocks `i >= 1` are never
processed. -/
theorem Dxdt_single_body (t : ℚ) (x xdot : List ℚ) (hx : 18 ≤ x.length)
    (hxd : 18 ≤ xdot.length) :
    Dxdt t x xdot = dxdtBlock x ++ xdot.drop 18 := by
  rw [Dxdt_raw t x xdot hx hxd]
  congr 1
  simp [dxdtBlock]
  ring_nf
  trivial

/-- C6 witness: the single-block theorem applied to a concrete two-body
input: the output buffer keeps its tail beyond index 18. -/
theorem Dxdt_single_body_witness :
    Dxdt 0 (List.replicate 36 1) (List.replicate 36 0) =
      dxdtBlock (List.replicate 36 1) ++ (List.replicate 36 (0 : ℚ)).drop 18 :=
  Dxdt_single_body 0 (List.replicate 36 1) (List.replicate 36 0)
    (by simp) (by simp)

/-- Dropping past a written 18-entry block reaches the preserved tail. -/
theorem drop_block_append (l1 l2 : List ℚ) (h : l1.length = 18) :
    (l1 ++ l2).drop 18 = l2 := by
  rw [← h, List.drop_left]

/-- A two-body flat state: body 0 at rest with identity rotation, body 1 with
identity rotation and linear momentum `(1, 1, 1)` (indices 30..32). -/
def xTwoBodies : List ℚ :=
  [0, 0, 0, 1, 0, 0, 0, 1, 0, 0, 0, 1, 0, 0, 0, 0, 0, 0,
   0, 0, 0, 1, 0, 0, 0, 1, 0, 0, 0, 1, 1, 1, 1, 0, 0, 0]

/-- C6 counterexample: on the two-body input `xTwoBodies` (lengths 36, a
whole multiple `2 x 18`), the claim requires the position derivative of body
1 — its momentum `1` at index 30 divided by the unit mass — to be written at
output index 18; the code leaves the entire second block zero. -/
theorem Dxdt_second_body_counterexample :
    (Dxdt 0 xTwoBodies (List.replicate 36 0)).drop 18 = List.replicate 18 0 ∧
    xTwoBodies.getD 30 0 = 1 := by
  constructor
  · rw [Dxdt_raw 0 xTwoBodies (List.replicate 36 0) (by simp [xTwoBodies]) (by simp)]
    rw [drop_block_append _ _ (by simp)]
    simp [List.drop_replicate]
  · rfl

/-! ## C7: convergence of the `FindAllCollisions` loop -/

/-- The true change rate of the relative normal velocity under a unit
impulse: like the impulse denominator of the source, but with the two
inverse-mass terms scaled by the squared length of the contact normal. -/
def vrelGain (c : Contact) : ℚ :=
  dot c.n c.n * (1 / c.a.mass + 1 / c.b.mass)
    + dot c.n (cross (c.a.Iinv * cross (c.p - c.a.x) c.n) (c.p - c.a.x))
    + dot c.n (cross (c.b.Iinv * cross (c.p - c.b.x) c.n) (c.p - c.b.x))

set_option maxHeartbeats 2000000 in
/-- Applying an impulse of magnitude `j` changes the relative normal velocity
by exactly `j * vrelGain`, for bodies whose stored velocities are consistent
with their momenta. -/
theorem vrelOf_applyImpulse (c : Contact) (j : ℚ)
    (hca : c.a.consistent) (hcb : c.b.consistent) :
    vrelOf (applyImpulse c j) = vrelOf c + j * vrelGain c := by
  obtain ⟨hva, hwa⟩ := hca
  obtain ⟨hvb, hwb⟩ := hcb
  unfold vrelOf applyImpulse pt_velocity vrelGain
  rw [hva, hwa, hvb, hwb]
  simp only [Mat3.hmul_def, Mat3.mulVec, dot, cross, Triple.add_x, Triple.add_y,
    Triple.add_z, Triple.sub_x, Triple.sub_y, Triple.sub_z, Triple.smul_x,
    Triple.smul_y, Triple.smul_z, Triple.div_x, Triple.div_y, Triple.div_z]
  ring

/-- For a unit-length contact normal the true velocity change rate coincides
with the denominator used by the source impulse formula. -/
theorem vrelGain_unit (c : Contact) (hn : dot c.n c.n = 1) :
    vrelGain c = impulseDenominator c := by
  unfold vrelGain impulseDenominator
  rw [hn]
  ring

/-- `collision` re-establishes the consistency of both bodies. -/
theorem collision_consistent (c : Contact) (epsilon : ℚ) :
    (collision c epsilon).a.consistent ∧ (collision c epsilon).b.consistent :=
  ⟨⟨rfl, rfl⟩, ⟨rfl, rfl⟩⟩

/-- `collision` does not change masses, positions, inertia, contact point or
normal, hence not the impulse denominator. -/
theorem impulseDenominator_collision (c : Contact) (epsilon : ℚ) :
    impulseDenominator (collision c epsilon) = impulseDenominator c := rfl

/-- After one resolution from a consistent state with unit normal and
nonzero denominator, the relative normal velocity is exactly `-epsilon`
times its old value. -/
theorem vrelOf_collision (c : Contact) (epsilon : ℚ)
    (hca : c.a.consistent) (hcb : c.b.consistent)
    (hn : dot c.n c.n = 1) (hd : impulseDenominator c ≠ 0) :
    vrelOf (collision c epsilon) = -epsilon * vrelOf c := by
  rw [collision_eq_applyImpulse, vrelOf_applyImpulse c _ hca hcb,
    vrelGain_unit c hn, div_mul_cancel₀ _ hd]
  ring

/-- C7 (amended): a pass of `FindAllCollisions` over a list with no colliding
contact resolves nothing, leaves every body unchanged and clears the
`had_collision` flag, so the loop stops after that single pass.  A singleton
list holding one colliding contact with nonzero masses and a nonzero impulse
denominator quiesces within three passes: some pass `k + 1` with `k <= 2`
reports no collision, and every contact surviving to that pass is no longer
colliding.  The amendment adds two hypotheses the source formula implicitly
relies on: the contact normal has unit length (the mass terms of the impulse
denominator are not scaled by its squared length) and the impulse denominator
is nonzero (a zero denominator with positive masses makes the loop spin
forever, see the counterexample). -/
theorem findAllCollisions_convergence :
    (∀ cs : List Contact, (∀ c ∈ cs, colliding c = false) →
        collisionPass cs = (cs, false)) ∧
    (∀ c : Contact, colliding c = true →
        0 < c.a.mass → 0 < c.b.mass →
        dot c.n c.n = 1 → impulseDenominator c ≠ 0 →
        ∃ k ≤ 2, (collisionPass (passIter k [c])).2 = false ∧
          ∀ c2 ∈ passIter k [c], colliding c2 = false) := by
  constructor
  · intro cs hnone
    induction cs with
    | nil => rfl
    | cons c cs ih =>
        have hc : colliding c = false := hnone c (by simp)
        have hrest := ih fun c2 hc2 => hnone c2 (by simp [hc2])
        simp [collisionPass, hc, hrest]
  · intro c hcol hma hmb hn hd
    have hpass0 : collisionPass [c] = ([collision c epsilonFAC], true) := by
      simp [collisionPass, hcol]
    by_cases h1 : colliding (collision c epsilonFAC) = true
    · -- a second resolution happens; the state after it is not colliding
      have hcons := collision_consistent c epsilonFAC
      have h2 : colliding (collision (collision c epsilonFAC) epsilonFAC) = false := by
        have hv : vrelOf (collision (collision c epsilonFAC) epsilonFAC)
            = -epsilonFAC * vrelOf (collision c epsilonFAC) :=
          vrelOf_collision _ _ hcons.1 hcons.2 hn
            (by rw [impulseDenominator_collision]; exact hd)
        have hv1 : vrelOf (collision c epsilonFAC) ≤ -THRESHOLD :=
          (colliding_iff _).mp h1
        rcases Bool.eq_false_or_eq_true
            (colliding (collision (collision c epsilonFAC) epsilonFAC)) with ht | hf
        · exfalso
          have := (colliding_iff _).mp ht
          rw [hv] at this
          unfold epsilonFAC THRESHOLD at *
          linarith
        · exact hf
      refine ⟨2, by norm_num, ?_, ?_⟩
      · have hiter : passIter 2 [c] = [collision (collision c epsilonFAC) epsilonFAC] := by
          simp [passIter, collisionPass, hcol, h1]
        rw [hiter]
        simp [collisionPass, h2]
      · intro c2 hc2
        have hiter : passIter 2 [c] = [collision (collision c epsilonFAC) epsilonFAC] := by
          simp [passIter, collisionPass, hcol, h1]
        rw [hiter] at hc2
        simp at hc2
        rw [hc2]
        exact h2
    · -- the first resolution already cleared the contact
      have h1f : colliding (collision c epsilonFAC) = false := by
        rcases Bool.eq_false_or_eq_true (colliding (collision c epsilonFAC)) with ht | hf
        · exact absurd ht h1
        · exact hf
      refine ⟨1, by norm_num, ?_, ?_⟩
      · have hiter : passIter 1 [c] = [collision c epsilonFAC] := by
          simp [passIter, collisionPass, hcol]
        rw [hiter]
        simp [collisionPass, h1f]
      · intro c2 hc2
        have hiter : passIter 1 [c] = [collision c epsilonFAC] := by
          simp [passIter, collisionPass, hcol]
        rw [hiter] at hc2
        simp at hc2
        rw [hc2]
        exact h1f
/-- A head-on approaching contact between unit masses at the origin. -/
def cHeadOn : Contact :=
  { a := mkBody 1 ⟨-1, 0, 0⟩, b := mkBody 1 ⟨1, 0, 0⟩, p := 0, n := ⟨1, 0, 0⟩,
    ea := 0, eb := 0, vf := true }

/-- The same geometry with the velocities exchanged: a separating contact. -/
def cSep : Contact :=
  { a := mkBody 1 ⟨1, 0, 0⟩, b := mkBody 1 ⟨-1, 0, 0⟩, p := 0, n := ⟨1, 0, 0⟩,
    ea := 0, eb := 0, vf := true }

/-- C7 witness: the quiescent-pass clause applied to the singleton separating
contact, and the convergence clause applied to the head-on contact. -/
theorem findAllCollisions_convergence_witness :
    collisionPass [cSep] = ([cSep], false) ∧
    ∃ k ≤ 2, (collisionPass (passIter k [cHeadOn])).2 = false ∧
      ∀ c2 ∈ passIter k [cHeadOn], colliding c2 = false := by
  constructor
  · refine findAllCollisions_convergence.1 [cSep] ?_
    intro c2 hc2
    simp only [List.mem_singleton] at hc2
    subst hc2
    rcases Bool.eq_false_or_eq_true (colliding cSep) with ht | hf
    · exfalso
      have := (colliding_iff _).mp ht
      rw [show vrelOf cSep = 2 from by
        norm_num [vrelOf, cSep, mkBody, pt_velocity, dot, cross]] at this
      norm_num [THRESHOLD] at this
    · exact hf
  · refine findAllCollisions_convergence.2 cHeadOn ?_ ?_ ?_ ?_ ?_
    · rw [colliding_iff]
      rw [show vrelOf cHeadOn = -2 from by
        norm_num [vrelOf, cHeadOn, mkBody, pt_velocity, dot, cross]]
      norm_num [THRESHOLD]
    · norm_num [cHeadOn, mkBody]
    · norm_num [cHeadOn, mkBody]
    · norm_num [cHeadOn, dot]
    · rw [show impulseDenominator cHeadOn = 2 from by
        norm_num [impulseDenominator, cHeadOn, mkBody, dot, cross, Mat3.mulVec,
          Mat3.one]]
      norm_num

/-- The negated identity matrix, an unphysical (negative definite) inverse
inertia tensor that drives the impulse denominator to zero. -/
def negId : Mat3 := ⟨⟨-1, 0, 0⟩, ⟨0, -1, 0⟩, ⟨0, 0, -1⟩⟩

/-- Unit-mass body at `(0, -1, 0)` moving along `-x`, with `Iinv = -I`. -/
def bodyDegA : RigidBody :=
  { mass := 1, x := ⟨0, -1, 0⟩, v := ⟨-1, 0, 0⟩, omega := 0, P := ⟨-1, 0, 0⟩,
    L := 0, Iinv := negId }

/-- Unit-mass body at rest at `(0, 1, 0)`, with `Iinv = -I`. -/
def bodyDegB : RigidBody :=
  { mass := 1, x := ⟨0, 1, 0⟩, v := 0, omega := 0, P := 0, L := 0, Iinv := negId }

/-- An approaching contact with positive masses whose impulse denominator is
exactly zero: the inertial terms contribute `-1` each against `1 + 1` from
the masses. -/
def cDeg : Contact :=
  { a := bodyDegA, b := bodyDegB, p := 0, n := ⟨1, 0, 0⟩, ea := 0, eb := 0,
    vf := true }

/-- C7 counterexample: `cDeg` is an approaching contact between two bodies of
positive mass, yet `FindAllCollisions` on the singleton list never
terminates: its impulse denominator is exactly zero, so the computed impulse
is the division-by-zero value (zero in exact rational arithmetic; in the C++
doubles `j` is infinite and the momenta become non-finite, after which the
relative velocity is NaN and `colliding` keeps returning true), every pass
leaves the state fixed and reports a collision, and no pass ever clears the
`had_collision` flag. -/
theorem findAllCollisions_cDeg_counterexample :
    0 < cDeg.a.mass ∧ 0 < cDeg.b.mass ∧ colliding cDeg = true ∧
    ¬ findAllCollisionsTerminates [cDeg] := by
  have hcol : colliding cDeg = true := by
    rw [colliding_iff]
    rw [show vrelOf cDeg = -1 from by
      norm_num [vrelOf, cDeg, bodyDegA, bodyDegB, pt_velocity, dot, cross]]
    norm_num [THRESHOLD]
  have hd0 : impulseDenominator cDeg = 0 := by
    norm_num [impulseDenominator, cDeg, bodyDegA, bodyDegB, dot, cross,
      Mat3.mulVec, negId]
  have hfix : collision cDeg epsilonFAC = cDeg := by
    rw [collision_eq_applyImpulse, hd0, div_zero]
    show applyImpulse cDeg 0 = cDeg
    simp [applyImpulse, cDeg, bodyDegA, bodyDegB, negId, cross, dot,
      Mat3.mulVec]
    refine ⟨⟨?_, ?_, ?_, ?_⟩, ?_, ?_, ?_, ?_⟩ <;> (ext <;> simp)
  have hpass : collisionPass [cDeg] = ([cDeg], true) := by
    simp [collisionPass, hcol, hfix]
  have hiter : ∀ k, passIter k [cDeg] = [cDeg] := by
    intro k
    induction k with
    | zero => rfl
    | succ n ih =>
        show passIter n (collisionPass [cDeg]).1 = [cDeg]
        rw [hpass]
        exact ih
  refine ⟨by norm_num [cDeg, bodyDegA], by norm_num [cDeg, bodyDegB], hcol, ?_⟩
  rintro ⟨k, hk⟩
  rw [hiter k, hpass] at hk
  exact absurd hk (by simp)

end Animation
